import Mathlib

/-!
Verification of the buoy feed normalizer (`buoy.py`).

The development shallowly embeds the script's core pipeline:

* `decimal_to_dmd`            — degrees/decimal-minutes rendering (source lines 9-17);
* `get_latest_buoy_data`      — fetch gate plus the per-line normalizer
  (source lines 19-91), split here into `processLine` / `processLines`;
* `aprs_message`              — the composed outbound message of `send_to_aprs`.

Modelling choices:

* Python floats are modelled as exact decimal fractions (`Frac`, an integer
  numerator over a natural denominator).  Every numeric token in the feed is a
  decimal literal, and every arithmetic step of the script (scaling by a
  constant, truncation, rounding) is exact on such fractions, so `Frac`
  arithmetic agrees with float arithmetic everywhere the script can reach,
  except for astronomically rare half-ulp ties which the feed's two-digit
  values never produce.  `Frac.toRat` interprets a fraction as a rational for
  specification-level statements.
* `float(...)` / `int(...)` string conversions are modelled by `parseFloat` /
  `parseInt`, covering signed decimal literals (the only shapes the feed
  emits); exotic accepted forms (exponents, `inf`, underscores) are outside
  the model, and both the model and CPython reject the malformed tokens used
  in the concrete theorems below.
* `datetime.strptime(..., "%Y %m %d %H %M")` is modelled by `parseTimestamp`
  (digit-width and calendar-range validation, `ValueError` as `none`), and
  `datetime.utcnow()` by an integer count of microseconds since the Unix
  epoch (`daysFromCivil` is the standard civil-calendar day count).
* Python's `round` (bankers' rounding) is `Frac.roundHE` on the execution
  side and `pyRoundQ` on the rational specification side; `int(...)` on a
  float truncates toward zero (`Frac.truncI`).
* An uncaught `ValueError` (the script has no handler around the unit
  conversions) is the `LineResult.exn` outcome; a `continue` is
  `LineResult.skipped`.  A raised exception aborts the whole run, which
  `processLines` models by `Except.error ()`.
-/

/-- Python `str.isspace` characters that `str.split()` separates on
(the feed is ASCII). -/
def isSpaceChar (c : Char) : Bool :=
  c = ' ' || c = '\t' || c = '\n' || c = '\r' || c = '\x0b' || c = '\x0c'

/-- Helper for `pySplit`: structural tokenizer over the character list, with
an accumulator holding the (reversed) current token. -/
def pySplitAux : List Char → List Char → List String
  | [], acc => if acc = [] then [] else [String.mk acc.reverse]
  | c :: cs, acc =>
    if isSpaceChar c then
      if acc = [] then pySplitAux cs []
      else String.mk acc.reverse :: pySplitAux cs []
    else pySplitAux cs (c :: acc)

/-- Python `str.split()` with no argument: split on runs of whitespace,
discarding empty tokens. -/
def pySplit (s : String) : List String := pySplitAux s.data []

/-- Helper for `pySplitlines`: split a character list at newline characters. -/
def splitNlAux : List Char → List Char → List String
  | [], acc => [String.mk acc.reverse]
  | c :: cs, acc =>
    if c = '\n' then String.mk acc.reverse :: splitNlAux cs []
    else splitNlAux cs (c :: acc)

/-- `str.splitlines()` for the LF-separated feed body. -/
def pySplitlines (s : String) : List String := splitNlAux s.data []

/-- Zero-pad the decimal digits of a natural number on the left to width `w`
(Python `"%0wd"` for non-negative values: `w` is a minimum width). -/
def padNat (w : ℕ) (n : ℕ) : String :=
  String.mk (List.replicate (w - (Nat.repr n).length) '0') ++ Nat.repr n

/-- Python `f"{n:0wd}"` for an integer: the sign occupies one of the `w`
columns and the digits are zero-padded; `w` is a minimum width. -/
def pad0 (w : ℕ) (n : ℤ) : String :=
  if n < 0 then "-" ++ padNat (w - 1) n.natAbs else padNat w n.natAbs

/-- Python `str.ljust(w)`: pad on the right with spaces to width `w`
(a longer string is returned unchanged). -/
def ljust (w : ℕ) (s : String) : String :=
  s ++ String.mk (List.replicate (w - s.length) ' ')

/-- Exact decimal fraction standing in for a Python float: numerator over a
natural denominator (positive in every fraction the pipeline builds). -/
structure Frac where
  num : ℤ
  den : ℕ
deriving DecidableEq

instance : Mul Frac := ⟨fun a b => ⟨a.num * b.num, a.den * b.den⟩⟩

instance : Add Frac := ⟨fun a b => ⟨a.num * b.den + b.num * a.den, a.den * b.den⟩⟩

instance : Sub Frac := ⟨fun a b => ⟨a.num * b.den - b.num * a.den, a.den * b.den⟩⟩

/-- Division, used by the pipeline only with a positive integral divisor. -/
instance : Div Frac := ⟨fun a b => ⟨a.num * b.den, a.den * b.num.toNat⟩⟩

instance : Neg Frac := ⟨fun a => ⟨-a.num, a.den⟩⟩

instance (n : ℕ) : OfNat Frac n := ⟨⟨n, 1⟩⟩

/-- Python `abs` on a float value. -/
def Frac.abs (a : Frac) : Frac := ⟨|a.num|, a.den⟩

/-- The rational value of a fraction (specification-level reading). -/
def Frac.toRat (a : Frac) : ℚ := (a.num : ℚ) / (a.den : ℚ)

/-- Mathematical floor of a fraction. -/
def Frac.floorI (a : Frac) : ℤ := a.num / (a.den : ℤ)

/-- Python `int(...)` on a float value: truncation toward zero. -/
def Frac.truncI (a : Frac) : ℤ := Int.tdiv a.num a.den

/-- Python `round(...)` to an integer: round half to even. -/
def Frac.roundHE (a : Frac) : ℤ :=
  if 2 * (a.num % (a.den : ℤ)) < (a.den : ℤ) then a.num / (a.den : ℤ)
  else if (a.den : ℤ) < 2 * (a.num % (a.den : ℤ)) then a.num / (a.den : ℤ) + 1
  else if (a.num / (a.den : ℤ)) % 2 = 0 then a.num / (a.den : ℤ)
  else a.num / (a.den : ℤ) + 1

/-- Python's `round` as a rational specification: round half to even. -/
def pyRoundQ (q : ℚ) : ℤ :=
  if q - ⌊q⌋ < 1 / 2 then ⌊q⌋
  else if 1 / 2 < q - ⌊q⌋ then ⌊q⌋ + 1
  else if ⌊q⌋ % 2 = 0 then ⌊q⌋ else ⌊q⌋ + 1

def isDigitChar (c : Char) : Bool := '0' ≤ c && c ≤ '9'

/-- Numeric value of a list of decimal digit characters. -/
def digitsVal (cs : List Char) : ℕ :=
  cs.foldl (fun a c => 10 * a + (c.toNat - 48)) 0

/-- Unsigned decimal part of `float(...)`: digits with an optional decimal
point (`"12"`, `"12."`, `".5"`, `"12.5"`). -/
def parseFloatUnsigned (cs : List Char) : Option Frac :=
  match cs.dropWhile isDigitChar with
  | [] =>
    if cs.takeWhile isDigitChar = [] then none
    else some ⟨(digitsVal (cs.takeWhile isDigitChar) : ℤ), 1⟩
  | '.' :: fp =>
    if fp.all isDigitChar && !(cs.takeWhile isDigitChar = [] && fp = []) then
      some ⟨(digitsVal (cs.takeWhile isDigitChar) * 10 ^ fp.length
        + digitsVal fp : ℤ), 10 ^ fp.length⟩
    else none
  | _ => none

/-- Python `float(token)` on the feed's token shapes: optional sign followed
by a decimal literal; raising `ValueError` is `none`. -/
def parseFloat (s : String) : Option Frac :=
  match s.data with
  | '+' :: cs => parseFloatUnsigned cs
  | '-' :: cs => (parseFloatUnsigned cs).map (fun f => -f)
  | cs => parseFloatUnsigned cs

/-- Python `int(token)`: optional sign followed by digits only (a decimal
point raises `ValueError`, modelled as `none`). -/
def parseInt (s : String) : Option ℤ :=
  let go : List Char → Option ℕ := fun cs =>
    if cs ≠ [] && cs.all isDigitChar then some (digitsVal cs) else none
  match s.data with
  | '+' :: cs => (go cs).map (fun n => (n : ℤ))
  | '-' :: cs => (go cs).map (fun n => -(n : ℤ))
  | cs => (go cs).map (fun n => (n : ℤ))

/-- A parsed observation timestamp (minute precision, as `strptime` yields
for `"%Y %m %d %H %M"`). -/
structure DateTime where
  year : ℕ
  month : ℕ
  day : ℕ
  hour : ℕ
  minute : ℕ
deriving DecidableEq

def isLeapYear (y : ℕ) : Bool := (y % 4 = 0 && y % 100 ≠ 0) || y % 400 = 0

def daysInMonth (y m : ℕ) : ℕ :=
  if m = 2 then (if isLeapYear y then 29 else 28)
  else if m = 4 || m = 6 || m = 9 || m = 11 then 30
  else 31

/-- An all-digit token of bounded width, as a `strptime` numeric directive
consumes (`none` models `ValueError`). -/
def parseDigits (maxLen : ℕ) (s : String) : Option ℕ :=
  if s.data ≠ [] && s.data.length ≤ maxLen && s.data.all isDigitChar then
    some (digitsVal s.data)
  else none

/-- `datetime.strptime(f"{y} {mo} {d} {h} {mi}", "%Y %m %d %H %M")`:
digit tokens validated against calendar ranges; `ValueError` is `none`. -/
def parseTimestamp (ys ms ds hs mins : String) : Option DateTime :=
  (parseDigits 4 ys).bind fun y =>
  (parseDigits 2 ms).bind fun mo =>
  (parseDigits 2 ds).bind fun d =>
  (parseDigits 2 hs).bind fun h =>
  (parseDigits 2 mins).bind fun mi =>
  if 1 ≤ y && 1 ≤ mo && mo ≤ 12 && 1 ≤ d && d ≤ daysInMonth y mo
      && h ≤ 23 && mi ≤ 59 then
    some ⟨y, mo, d, h, mi⟩
  else none

/-- Days since 1970-01-01 of a proleptic-Gregorian civil date
(the standard era-based day-count algorithm). -/
def daysFromCivil (y m d : ℤ) : ℤ :=
  let yAdj := if m ≤ 2 then y - 1 else y
  let era := yAdj / 400
  let yoe := yAdj - era * 400
  let mp := (m + 9) % 12
  let doy := (153 * mp + 2) / 5 + d - 1
  let doe := yoe * 365 + yoe / 4 - yoe / 100 + doy
  era * 146097 + doe - 719468

/-- The timestamp's absolute time, in microseconds since the Unix epoch
(the resolution of `datetime` arithmetic). -/
def epochMicro (t : DateTime) : ℤ :=
  (daysFromCivil t.year t.month t.day * 1440 + t.hour * 60 + t.minute) * 60000000

/-- `timedelta(hours=0.5)` in microseconds. -/
def staleLimitMicro : ℤ := 1800000000

/-- `datetime.utcnow() - obs_time > timedelta(hours=0.5)` for a fetch
wall-clock `now` in microseconds since the epoch. -/
def isStale (now : ℤ) (t : DateTime) : Bool :=
  decide (staleLimitMicro < now - epochMicro t)

/-- `obs_time.strftime("%d%H%M")`. -/
def strftimeDDHHMM (t : DateTime) : String :=
  padNat 2 t.day ++ padNat 2 t.hour ++ padNat 2 t.minute

/-- `safe_value` from the source: map the feed's missing-data marker `"MM"`
to the given default. -/
def safe_value (value : String) (default : String) : String :=
  if value = "MM" then default else value

/-- Rendering of a converted Fahrenheit value (source line 59):
`f"{temp:03d}" if temp >= 0 else f"-{abs(temp):02d}"`. -/
def tempRender (f : ℤ) : String :=
  if 0 ≤ f then pad0 3 f else "-" ++ padNat 2 f.natAbs

/-- Temperature conversion of source lines 56-59: `"MM"` becomes the `"..."`
sentinel; otherwise `int(round(float(temp) * 9/5 + 32))` rendered by
`tempRender`.  `none` is an uncaught `ValueError` from `float(...)`. -/
def tempField (t : String) : Option String :=
  if safe_value t "..." = "..." then some "..."
  else (parseFloat (safe_value t "...")).map
    (fun c => tempRender (Frac.roundHE (c * 9 / 5 + 32)))

/-- `2.23694` (m/s to mph). -/
def mphFactor : Frac := ⟨223694, 100000⟩

/-- Wind speed / gust conversion of source lines 61-67:
`f"{int(float(safe_value(ws, '0')) * 2.23694):03d}"` behind the sentinel
check; `none` is an uncaught `ValueError`. -/
def windSpeedField (ws : String) : Option String :=
  if safe_value ws "..." = "..." then some "..."
  else (parseFloat (safe_value (safe_value ws "...") "0")).map
    (fun v => pad0 3 (Frac.truncI (v * mphFactor)))

/-- Wind direction conversion of source lines 69-71:
`f"{int(safe_value(wd, '0')):03d}"` behind the sentinel check. -/
def windDirField (wd : String) : Option String :=
  if safe_value wd "..." = "..." then some "..."
  else (parseInt (safe_value (safe_value wd "...") "0")).map (fun d => pad0 3 d)

/-- Pressure conversion of source lines 73-76: the `try`/`except ValueError`
makes this total — a conversion failure yields the five-dot sentinel. -/
def pressureField (p : String) : String :=
  if p = "..." then "....."
  else
    match parseFloat p with
    | none => "....."
    | some v => pad0 5 (Frac.truncI (v * 10))

/-- The dictionary appended to `buoy_data_list` for a retained line. -/
structure BuoyRecord where
  id : String
  latitude : Frac
  longitude : Frac
  wind_speed : String
  wind_gust : String
  wind_direction : String
  temperature : String
  pressure : String
  obs_time : String
deriving DecidableEq

/-- Outcome of the loop body for one line: a retained record, a `continue`,
or an uncaught exception that aborts the whole run. -/
inductive LineResult where
  | record (r : BuoyRecord)
  | skipped
  | exn
deriving DecidableEq

/-- Token at positional index `i` of a line (the script indexes the
whitespace-split field list positionally). -/
def tokenOf (line : String) (i : ℕ) : String := (pySplit line).getD i ""

/-- The observation timestamp parsed from tokens 3-7. -/
def tsOf (line : String) : Option DateTime :=
  parseTimestamp (tokenOf line 3) (tokenOf line 4) (tokenOf line 5)
    (tokenOf line 6) (tokenOf line 7)

/-- Conversion-and-construction stage (source lines 53-88), reached after the
length, token-count, timestamp and staleness gates: unit conversions in
source order, then the record literal; any `none` from an unguarded
conversion (or from `float(lat)` / `float(lon)`) is an uncaught
`ValueError`. -/
def buildRecord (line : String) (obs : DateTime) : LineResult :=
  match tempField (tokenOf line 17), windSpeedField (tokenOf line 9),
        windSpeedField (tokenOf line 10), windDirField (tokenOf line 8) with
  | some tS, some wsS, some wgS, some wdS =>
    match parseFloat (tokenOf line 1), parseFloat (tokenOf line 2) with
    | some latV, some lonV =>
      .record ⟨ljust 9 (tokenOf line 0), latV, lonV, wsS, wgS, wdS, tS,
        pressureField (tokenOf line 15), strftimeDDHHMM obs⟩
    | _, _ => .exn
  | _, _, _, _ => .exn

/-- One iteration of the per-line loop (source lines 31-88): the length gate,
the token-count gate, the timestamp parse (whose `ValueError` is caught and
skips the line), the staleness gate, then `buildRecord`. -/
def processLine (now : ℤ) (line : String) : LineResult :=
  if line.length < 70 then .skipped
  else if (pySplit line).length < 18 then .skipped
  else
    match tsOf line with
    | none => .skipped
    | some obs => if isStale now obs then .skipped else buildRecord line obs

/-- The whole loop over the data lines: records in input order; an uncaught
exception aborts the run (`Except.error ()`). -/
def processLines (now : ℤ) : List String → Except Unit (List BuoyRecord)
  | [] => .ok []
  | line :: rest =>
    match processLine now line with
    | .exn => .error ()
    | .skipped => processLines now rest
    | .record r =>
      match processLines now rest with
      | .error e => .error e
      | .ok rs => .ok (r :: rs)

/-- `get_latest_buoy_data`, with the HTTP response abstracted to a status
code and a body: a non-200 status returns the empty list; otherwise the
first two lines (header/units) are skipped and the rest normalized. -/
def get_latest_buoy_data (status : ℕ) (body : String) (now : ℤ) :
    Except Unit (List BuoyRecord) :=
  if status ≠ 200 then .ok []
  else processLines now ((pySplitlines body).drop 2)

/-- Digit part of `"%.2f"`: integer part, point, two fractional digits,
applied to a value scaled to hundredths. -/
def fmt052core (n : ℕ) : String :=
  Nat.repr (n / 100) ++ "." ++ padNat 2 (n % 100)

/-- Python's `f"{m:05.2f}"` for the non-negative minute values
`decimal_to_dmd` produces: round half to even at two decimals, then
zero-pad on the left to a minimum of five columns. -/
def fmt052 (m : Frac) : String :=
  String.mk (List.replicate (5 - (fmt052core ((Frac.roundHE (m * 100)).toNat)).length) '0')
    ++ fmt052core ((Frac.roundHE (m * 100)).toNat)

def decimal_to_dmd (value : Frac) (is_latitude : Bool) : String :=
  let degrees := Frac.truncI (Frac.abs value)
  let minutes := (Frac.abs value - ⟨degrees, 1⟩) * 60
  if is_latitude then
    pad0 2 degrees ++ fmt052 minutes ++ (if 0 ≤ value.num then "N" else "S")
  else
    pad0 3 degrees ++ fmt052 minutes ++ (if 0 ≤ value.num then "E" else "W")

/-- The composed APRS-IS data line of `send_to_aprs` (source lines 106-107). -/
def aprs_message (callsign : String) (b : BuoyRecord) : String :=
  callsign ++ ">APFBUO,TCPIP*:;" ++ b.id ++ "*" ++ b.obs_time ++ "z"
    ++ decimal_to_dmd b.latitude true ++ "/" ++ decimal_to_dmd b.longitude false
    ++ "_" ++ b.wind_direction ++ "/" ++ b.wind_speed ++ "g" ++ b.wind_gust
    ++ "t" ++ b.temperature ++ "b" ++ b.pressure

/-- The messages the `__main__` block would send: one per retained record, in
order; an empty fetch sends nothing. -/
def mainMessages (callsign : String) (status : ℕ) (body : String) (now : ℤ) :
    Except Unit (List String) :=
  (get_latest_buoy_data status body now).map (List.map (aprs_message callsign))

/-- The four per-line gates that precede the conversions: length,
token count, timestamp parse, staleness. -/
def passesGates (now : ℤ) (line : String) : Bool :=
  decide (70 ≤ line.length) && decide (18 ≤ (pySplit line).length) &&
    (match tsOf line with
     | none => false
     | some t => !isStale now t)

instance : DecidableEq (Except Unit (List BuoyRecord)) := fun a b =>
  match a, b with
  | .ok x, .ok y =>
    if h : x = y then .isTrue (by rw [h])
    else .isFalse (by intro he; cases he; exact h rfl)
  | .ok _, .error _ => .isFalse (by intro he; cases he)
  | .error _, .ok _ => .isFalse (by intro he; cases he)
  | .error x, .error y =>
    if h : x = y then .isTrue (by rw [h])
    else .isFalse (by intro he; cases he; exact h rfl)

theorem length_mk (l : List Char) : (String.mk l).length = l.length := rfl

theorem repr_len_le_two : ∀ n : ℕ, n < 100 → (Nat.repr n).length ≤ 2 := by decide

set_option maxRecDepth 8000 in
theorem repr_len_le_three : ∀ n : ℕ, n < 1000 → (Nat.repr n).length ≤ 3 := by decide

theorem padNat_length (w n : ℕ) : (padNat w n).length = max w (Nat.repr n).length := by
  unfold padNat
  rw [String.length_append, length_mk, List.length_replicate]
  omega

theorem pad0_length_ge (w : ℕ) (n : ℤ) : w ≤ (pad0 w n).length := by
  unfold pad0
  split
  · rw [String.length_append, padNat_length]
    have h1 : ("-").length = 1 := rfl
    omega
  · rw [padNat_length]
    omega

theorem ljust_length (w : ℕ) (s : String) : (ljust w s).length = max w s.length := by
  show (s.data ++ List.replicate (w - s.data.length) ' ').length = max w s.data.length
  rw [List.length_append, List.length_replicate]
  omega

theorem tempRender_length_ge (f : ℤ) : 3 ≤ (tempRender f).length := by
  unfold tempRender
  split
  · exact pad0_length_ge 3 f
  · rw [String.length_append, padNat_length]
    have h1 : ("-").length = 1 := rfl
    omega

theorem tempRender_length_eq (f : ℤ) (h1 : -99 ≤ f) (h2 : f ≤ 999) :
    (tempRender f).length = 3 := by
  unfold tempRender
  split
  · unfold pad0
    rw [if_neg (by omega), padNat_length]
    have h3 : (Nat.repr f.natAbs).length ≤ 3 := repr_len_le_three _ (by omega)
    omega
  · rw [String.length_append, padNat_length]
    have h3 : (Nat.repr f.natAbs).length ≤ 2 := repr_len_le_two _ (by omega)
    have h4 : ("-").length = 1 := rfl
    omega

theorem pressureField_length_ge (p : String) : 5 ≤ (pressureField p).length := by
  unfold pressureField
  split
  · decide
  · split
    · decide
    · exact pad0_length_ge 5 _

theorem Frac.mul_def (a b : Frac) : a * b = ⟨a.num * b.num, a.den * b.den⟩ := rfl

theorem Frac.add_def (a b : Frac) :
    a + b = ⟨a.num * b.den + b.num * a.den, a.den * b.den⟩ := rfl

theorem Frac.sub_def (a b : Frac) :
    a - b = ⟨a.num * b.den - b.num * a.den, a.den * b.den⟩ := rfl

theorem Frac.div_def (a b : Frac) : a / b = ⟨a.num * b.den, a.den * b.num.toNat⟩ := rfl

theorem Frac.ofNat_def (n : ℕ) : (OfNat.ofNat n : Frac) = ⟨(n : ℤ), 1⟩ := rfl

theorem Frac.neg_def (a : Frac) : -a = ⟨-a.num, a.den⟩ := rfl

theorem Frac.floorI_eq (a : Frac) : a.floorI = ⌊a.toRat⌋ :=
  (Rat.floor_intCast_div_natCast a.num a.den).symm

theorem Frac.toRat_abs (a : Frac) : (Frac.abs a).toRat = |a.toRat| := by
  unfold Frac.toRat Frac.abs
  rw [abs_div]
  congr 1
  · push_cast
    ring
  · exact (abs_of_nonneg (by positivity)).symm

theorem Frac.truncI_abs_eq (a : Frac) : (Frac.abs a).truncI = ⌊|a.toRat|⌋ := by
  rw [← Frac.toRat_abs, ← Frac.floorI_eq]
  unfold Frac.truncI Frac.floorI Frac.abs
  exact Int.tdiv_eq_ediv (abs_nonneg _) (Int.natCast_nonneg _)

theorem Frac.toRat_nonneg_iff (a : Frac) (h : 0 < a.den) :
    0 ≤ a.toRat ↔ 0 ≤ a.num := by
  unfold Frac.toRat
  rw [div_nonneg_iff]
  have hd : (0:ℚ) < (a.den : ℚ) := by exact_mod_cast h
  constructor
  · rintro (⟨h1, _⟩ | ⟨_, h2⟩)
    · exact_mod_cast h1
    · exact ((not_lt.mpr h2) hd).elim
  · intro h1
    exact Or.inl ⟨by exact_mod_cast h1, hd.le⟩

theorem Frac.fract_eq (a : Frac) (h : a.den ≠ 0) :
    a.toRat - (⌊a.toRat⌋ : ℚ) = ((a.num % (a.den : ℤ) : ℤ) : ℚ) / (a.den : ℚ) := by
  rw [← Frac.floorI_eq]
  unfold Frac.toRat Frac.floorI
  have hd : (0:ℚ) < (a.den : ℚ) := by
    exact_mod_cast Nat.pos_of_ne_zero h
  have hdecomp : (a.den : ℤ) * (a.num / (a.den : ℤ)) + a.num % (a.den : ℤ) = a.num :=
    Int.ediv_add_emod a.num (a.den : ℤ)
  have key : ((a.den : ℤ) : ℚ) * ((a.num / (a.den : ℤ) : ℤ) : ℚ)
      + ((a.num % (a.den : ℤ) : ℤ) : ℚ) = (a.num : ℚ) := by
    exact_mod_cast hdecomp
  rw [eq_div_iff hd.ne', sub_mul, div_mul_cancel₀ _ hd.ne']
  push_cast at key ⊢
  linarith [key]

theorem Frac.roundHE_eq (a : Frac) (h : a.den ≠ 0) : a.roundHE = pyRoundQ a.toRat := by
  have hdq : (0:ℚ) < (a.den : ℚ) := by exact_mod_cast Nat.pos_of_ne_zero h
  have hfl : ⌊a.toRat⌋ = a.num / (a.den : ℤ) := (Frac.floorI_eq a).symm
  have hc2 : ((a.num % (a.den : ℤ) : ℤ) : ℚ) * 2 =
      ((2 * (a.num % (a.den : ℤ)) : ℤ) : ℚ) := by
    push_cast
    ring
  have hc3 : (1:ℚ) * (a.den : ℚ) = (((a.den : ℤ)) : ℚ) := by
    push_cast
    ring
  have hlt : (a.toRat - (⌊a.toRat⌋ : ℚ) < 1 / 2) ↔
      2 * (a.num % (a.den : ℤ)) < (a.den : ℤ) := by
    rw [Frac.fract_eq a h, div_lt_div_iff₀ hdq (by norm_num), hc2, hc3]
    exact Int.cast_lt
  have hgt : (1 / 2 < a.toRat - (⌊a.toRat⌋ : ℚ)) ↔
      (a.den : ℤ) < 2 * (a.num % (a.den : ℤ)) := by
    rw [Frac.fract_eq a h, div_lt_div_iff₀ (by norm_num) hdq, hc2, hc3]
    exact Int.cast_lt
  unfold Frac.roundHE pyRoundQ
  rw [hfl] at hlt hgt ⊢
  by_cases h1 : 2 * (a.num % (a.den : ℤ)) < (a.den : ℤ)
  · rw [if_pos h1, if_pos (hlt.mpr h1)]
  · rw [if_neg h1, if_neg (fun hc => h1 (hlt.mp hc))]
    by_cases h2 : (a.den : ℤ) < 2 * (a.num % (a.den : ℤ))
    · rw [if_pos h2, if_pos (hgt.mpr h2)]
    · rw [if_neg h2, if_neg (fun hc => h2 (hgt.mp hc))]

theorem temp_formula_toRat (c : Frac) (h : c.den ≠ 0) :
    (c * 9 / 5 + 32 : Frac).toRat = c.toRat * 9 / 5 + 32 := by
  simp only [Frac.mul_def, Frac.div_def, Frac.add_def, Frac.ofNat_def]
  unfold Frac.toRat
  have hd : ((c.den : ℚ)) ≠ 0 := by exact_mod_cast h
  push_cast
  field_simp
  try ring

theorem minutes_formula_toRat (v : Frac) (h : v.den ≠ 0) :
    ((Frac.abs v - ⟨Frac.truncI (Frac.abs v), 1⟩) * 60 : Frac).toRat
      = (|v.toRat| - (⌊|v.toRat|⌋ : ℚ)) * 60 := by
  rw [← Frac.truncI_abs_eq, ← Frac.toRat_abs]
  simp only [Frac.sub_def, Frac.mul_def, Frac.ofNat_def]
  unfold Frac.toRat Frac.abs
  have hd : ((v.den : ℚ)) ≠ 0 := by exact_mod_cast h
  push_cast
  field_simp
  try ring

theorem parseFloatUnsigned_den_pos {cs : List Char} {f : Frac}
    (h : parseFloatUnsigned cs = some f) : 0 < f.den := by
  unfold parseFloatUnsigned at h
  split at h
  · split at h
    · cases h
    · cases h
      exact Nat.one_pos
  · split at h
    · cases h
      exact Nat.pos_pow_of_pos _ (by omega)
    · cases h
  · cases h

theorem parseFloat_den_pos {s : String} {f : Frac} (h : parseFloat s = some f) :
    0 < f.den := by
  unfold parseFloat at h
  split at h
  · exact parseFloatUnsigned_den_pos h
  · rw [Option.map_eq_some'] at h
    obtain ⟨g, hg, rfl⟩ := h
    show 0 < g.den
    exact parseFloatUnsigned_den_pos hg
  · exact parseFloatUnsigned_den_pos h

theorem tempField_cases {t s : String} (h : tempField t = some s) :
    s = "..." ∨ ∃ c, t ≠ "MM" ∧ parseFloat t = some c ∧
      s = tempRender (Frac.roundHE (c * 9 / 5 + 32)) := by
  unfold tempField at h
  split at h
  · cases h
    exact Or.inl rfl
  · rename_i hne
    rw [Option.map_eq_some'] at h
    obtain ⟨c, hc, rfl⟩ := h
    have hmm : t ≠ "MM" := by
      intro hcontra
      apply hne
      unfold safe_value
      rw [if_pos hcontra]
    unfold safe_value at hc
    rw [if_neg hmm] at hc
    exact Or.inr ⟨c, hmm, hc, rfl⟩

theorem windSpeedField_cases {t s : String} (h : windSpeedField t = some s) :
    s = "..." ∨ ∃ v, t ≠ "MM" ∧ parseFloat t = some v ∧
      s = pad0 3 (Frac.truncI (v * mphFactor)) := by
  unfold windSpeedField at h
  split at h
  · cases h
    exact Or.inl rfl
  · rename_i hne
    rw [Option.map_eq_some'] at h
    obtain ⟨v, hv, rfl⟩ := h
    have hmm : t ≠ "MM" := by
      intro hcontra
      apply hne
      unfold safe_value
      rw [if_pos hcontra]
    have hsv : safe_value t "..." = t := by
      unfold safe_value
      rw [if_neg hmm]
    have hsv0 : safe_value t "0" = t := by
      unfold safe_value
      rw [if_neg hmm]
    rw [hsv, hsv0] at hv
    exact Or.inr ⟨v, hmm, hv, rfl⟩

theorem windDirField_cases {t s : String} (h : windDirField t = some s) :
    s = "..." ∨ ∃ d, t ≠ "MM" ∧ parseInt t = some d ∧ s = pad0 3 d := by
  unfold windDirField at h
  split at h
  · cases h
    exact Or.inl rfl
  · rename_i hne
    rw [Option.map_eq_some'] at h
    obtain ⟨d, hd, rfl⟩ := h
    have hmm : t ≠ "MM" := by
      intro hcontra
      apply hne
      unfold safe_value
      rw [if_pos hcontra]
    have hsv : safe_value t "..." = t := by
      unfold safe_value
      rw [if_neg hmm]
    have hsv0 : safe_value t "0" = t := by
      unfold safe_value
      rw [if_neg hmm]
    rw [hsv, hsv0] at hd
    exact Or.inr ⟨d, hmm, hd, rfl⟩

theorem pressureField_cases (p : String) :
    pressureField p = "....." ∨
      ∃ v, parseFloat p = some v ∧ pressureField p = pad0 5 (Frac.truncI (v * 10)) := by
  unfold pressureField
  split
  · exact Or.inl rfl
  · split
    · exact Or.inl rfl
    · rename_i v hv
      exact Or.inr ⟨v, hv, rfl⟩

theorem tempField_length {t s : String} (h : tempField t = some s) : 3 ≤ s.length := by
  rcases tempField_cases h with h1 | ⟨c, _, _, rfl⟩
  · rw [h1]
    decide
  · exact tempRender_length_ge _

theorem windSpeedField_length {t s : String} (h : windSpeedField t = some s) :
    3 ≤ s.length := by
  rcases windSpeedField_cases h with h1 | ⟨v, _, _, rfl⟩
  · rw [h1]
    decide
  · exact pad0_length_ge 3 _

theorem windDirField_length {t s : String} (h : windDirField t = some s) :
    3 ≤ s.length := by
  rcases windDirField_cases h with h1 | ⟨d, _, _, rfl⟩
  · rw [h1]
    decide
  · exact pad0_length_ge 3 _

theorem daysInMonth_le (y m : ℕ) : daysInMonth y m ≤ 31 := by
  unfold daysInMonth
  split
  · split <;> decide
  · split <;> decide

theorem parseTimestamp_ranges {a b c d e : String} {t : DateTime}
    (h : parseTimestamp a b c d e = some t) :
    1 ≤ t.month ∧ t.month ≤ 12 ∧ 1 ≤ t.day ∧ t.day ≤ 31 ∧
      t.hour ≤ 23 ∧ t.minute ≤ 59 := by
  unfold parseTimestamp at h
  rw [Option.bind_eq_some] at h
  obtain ⟨y, hy, h⟩ := h
  rw [Option.bind_eq_some] at h
  obtain ⟨mo, hmo, h⟩ := h
  rw [Option.bind_eq_some] at h
  obtain ⟨dd, hdd, h⟩ := h
  rw [Option.bind_eq_some] at h
  obtain ⟨hh, hhh, h⟩ := h
  rw [Option.bind_eq_some] at h
  obtain ⟨mi, hmi, h⟩ := h
  split at h
  · rename_i hcond
    cases h
    simp only [Bool.and_eq_true, decide_eq_true_eq] at hcond
    obtain ⟨⟨⟨⟨⟨⟨h1, h2⟩, h3⟩, h4⟩, h5⟩, h6⟩, h7⟩ := hcond
    exact ⟨h2, h3, h4, le_trans h5 (daysInMonth_le _ _), h6, h7⟩
  · cases h

theorem strftime_length {t : DateTime} (hd : t.day ≤ 99) (hh : t.hour ≤ 99)
    (hm : t.minute ≤ 99) : (strftimeDDHHMM t).length = 6 := by
  unfold strftimeDDHHMM
  rw [String.length_append, String.length_append, padNat_length, padNat_length,
    padNat_length]
  have h1 := repr_len_le_two t.day (by omega)
  have h2 := repr_len_le_two t.hour (by omega)
  have h3 := repr_len_le_two t.minute (by omega)
  omega

theorem buildRecord_ne_skipped (line : String) (obs : DateTime) :
    buildRecord line obs ≠ .skipped := by
  unfold buildRecord
  split
  · split
    · exact fun h => LineResult.noConfusion h
    · exact fun h => LineResult.noConfusion h
  · exact fun h => LineResult.noConfusion h

theorem buildRecord_record {line : String} {obs : DateTime} {r : BuoyRecord}
    (h : buildRecord line obs = .record r) :
    ∃ tS wsS wgS wdS latV lonV,
      tempField (tokenOf line 17) = some tS ∧
      windSpeedField (tokenOf line 9) = some wsS ∧
      windSpeedField (tokenOf line 10) = some wgS ∧
      windDirField (tokenOf line 8) = some wdS ∧
      parseFloat (tokenOf line 1) = some latV ∧
      parseFloat (tokenOf line 2) = some lonV ∧
      r = ⟨ljust 9 (tokenOf line 0), latV, lonV, wsS, wgS, wdS, tS,
        pressureField (tokenOf line 15), strftimeDDHHMM obs⟩ := by
  unfold buildRecord at h
  split at h
  · split at h
    · cases h
      refine ⟨_, _, _, _, _, _, ?_, ?_, ?_, ?_, ?_, ?_, rfl⟩ <;> assumption
    · exact (LineResult.noConfusion h)
  · exact (LineResult.noConfusion h)

theorem processLine_record {now : ℤ} {line : String} {r : BuoyRecord}
    (h : processLine now line = .record r) :
    ∃ obs, tsOf line = some obs ∧ isStale now obs = false ∧
      70 ≤ line.length ∧ 18 ≤ (pySplit line).length ∧
      buildRecord line obs = .record r := by
  unfold processLine at h
  split at h
  · exact (LineResult.noConfusion h)
  · split at h
    · exact (LineResult.noConfusion h)
    · rename_i h1 h2
      split at h
      · exact (LineResult.noConfusion h)
      · rename_i obs hts
        split at h
        · exact (LineResult.noConfusion h)
        · rename_i hstale
          exact ⟨obs, hts, by simpa using hstale, by omega, by omega, h⟩

theorem passesGates_iff {now : ℤ} {line : String} :
    passesGates now line = true ↔
      70 ≤ line.length ∧ 18 ≤ (pySplit line).length ∧
        ∃ t, tsOf line = some t ∧ isStale now t = false := by
  unfold passesGates
  rw [Bool.and_eq_true, Bool.and_eq_true]
  simp only [decide_eq_true_eq]
  constructor
  · rintro ⟨⟨h1, h2⟩, h3⟩
    refine ⟨h1, h2, ?_⟩
    revert h3
    cases hts : tsOf line with
    | none => intro h3; cases h3
    | some t =>
      intro h3
      exact ⟨t, rfl, by simpa [Bool.not_eq_true'] using h3⟩
  · rintro ⟨h1, h2, t, hts, hstale⟩
    refine ⟨⟨h1, h2⟩, ?_⟩
    rw [hts]
    simp [hstale]

theorem processLine_gates {now : ℤ} {line : String} (h : passesGates now line = true) :
    ∃ obs, tsOf line = some obs ∧ isStale now obs = false ∧
      processLine now line = buildRecord line obs := by
  obtain ⟨h1, h2, t, hts, hstale⟩ := passesGates_iff.mp h
  refine ⟨t, hts, hstale, ?_⟩
  unfold processLine
  rw [if_neg (by omega), if_neg (by omega), hts]
  show (if isStale now t then LineResult.skipped else buildRecord line t)
      = buildRecord line t
  rw [hstale]
  simp

theorem processLine_not_skipped {now : ℤ} {line : String}
    (h : passesGates now line = true) : processLine now line ≠ .skipped := by
  obtain ⟨obs, _, _, heq⟩ := processLine_gates h
  rw [heq]
  exact buildRecord_ne_skipped line obs

theorem processLines_mem {now : ℤ} {lines : List String} {rs : List BuoyRecord}
    {r : BuoyRecord} (h : processLines now lines = .ok rs) (hr : r ∈ rs) :
    ∃ line ∈ lines, processLine now line = .record r := by
  induction lines generalizing rs with
  | nil =>
    unfold processLines at h
    cases h
    exact absurd hr (List.not_mem_nil r)
  | cons line rest ih =>
    unfold processLines at h
    split at h
    · exact (Except.noConfusion h)
    · obtain ⟨l, hl, hrec⟩ := ih h hr
      exact ⟨l, List.mem_cons_of_mem _ hl, hrec⟩
    · rename_i r0 heq
      split at h
      · exact (Except.noConfusion h)
      · rename_i rs0 hrest
        cases h
        rcases List.mem_cons.mp hr with hcase | hcase
        · exact ⟨line, List.mem_cons_self _ _, by rw [heq, hcase]⟩
        · obtain ⟨l, hl, hrec⟩ := ih hrest hcase
          exact ⟨l, List.mem_cons_of_mem _ hl, hrec⟩

theorem processLines_error {now : ℤ} {lines : List String} {l : String}
    (hl : l ∈ lines) (h : processLine now l = .exn) :
    processLines now lines = .error () := by
  induction lines with
  | nil => exact absurd hl (List.not_mem_nil l)
  | cons line rest ih =>
    rcases List.mem_cons.mp hl with hcase | hcase
    · unfold processLines
      rw [← hcase, h]
    · unfold processLines
      split
      · rfl
      · exact ih hcase
      · rw [ih hcase]

theorem processLine_time {now1 now2 : ℤ}
    (h : ∀ t : DateTime, isStale now1 t = isStale now2 t) (line : String) :
    processLine now1 line = processLine now2 line := by
  by_cases h1 : line.length < 70
  · simp [processLine, h1]
  · by_cases h2 : (pySplit line).length < 18
    · simp [processLine, h1, h2]
    · cases hts : tsOf line with
      | none => simp [processLine, h1, h2, hts]
      | some obs => simp [processLine, h1, h2, hts, h obs]

theorem zeroPad_length (w : ℕ) (s : String) :
    (String.mk (List.replicate (w - s.length) '0') ++ s).length = max w s.length := by
  show (List.replicate (w - s.data.length) '0' ++ s.data).length = max w s.data.length
  rw [List.length_append, List.length_replicate]
  omega

theorem Frac.roundHE_bounds (a : Frac) :
    a.num / (a.den : ℤ) ≤ a.roundHE ∧ a.roundHE ≤ a.num / (a.den : ℤ) + 1 := by
  unfold Frac.roundHE
  split
  · omega
  · split
    · omega
    · split <;> omega

theorem fmt052_length {m : Frac} (h : (Frac.roundHE (m * 100)).toNat ≤ 6000) :
    (fmt052 m).length = 5 := by
  unfold fmt052
  rw [zeroPad_length]
  have hA : (fmt052core ((Frac.roundHE (m * 100)).toNat)).length ≤ 5 := by
    unfold fmt052core
    rw [String.length_append, String.length_append, padNat_length]
    have h1 := repr_len_le_two ((Frac.roundHE (m * 100)).toNat / 100) (by omega)
    have h2 := repr_len_le_two ((Frac.roundHE (m * 100)).toNat % 100) (by omega)
    have h3 : ("." : String).length = 1 := rfl
    omega
  omega

theorem fmt052_length_of_lt {m : Frac} (hden : m.den ≠ 0) (hnn : 0 ≤ m.toRat)
    (hlt : m.toRat < 60) : (fmt052 m).length = 5 := by
  have hnum_nn : 0 ≤ m.num := (Frac.toRat_nonneg_iff m (Nat.pos_of_ne_zero hden)).mp hnn
  have hnum_lt : m.num < 60 * (m.den : ℤ) := by
    unfold Frac.toRat at hlt
    rw [div_lt_iff₀ (by exact_mod_cast Nat.pos_of_ne_zero hden)] at hlt
    exact_mod_cast hlt
  have hb : m.num * 100 / ((m.den * 1 : ℕ) : ℤ) ≤ Frac.roundHE ⟨m.num * 100, m.den * 1⟩
      ∧ Frac.roundHE ⟨m.num * 100, m.den * 1⟩ ≤ m.num * 100 / ((m.den * 1 : ℕ) : ℤ) + 1 :=
    Frac.roundHE_bounds ⟨m.num * 100, m.den * 1⟩
  have hq_nn : 0 ≤ m.num * 100 / ((m.den * 1 : ℕ) : ℤ) :=
    Int.ediv_nonneg (by omega) (Int.natCast_nonneg _)
  have hq_lt : m.num * 100 / ((m.den * 1 : ℕ) : ℤ) < 6000 := by
    rw [Int.ediv_lt_iff_lt_mul (by push_cast; omega)]
    push_cast
    omega
  apply fmt052_length
  show (Frac.roundHE ⟨m.num * 100, m.den * 1⟩).toNat ≤ 6000
  omega

theorem processLines_time {now1 now2 : ℤ}
    (h : ∀ t : DateTime, isStale now1 t = isStale now2 t) (lines : List String) :
    processLines now1 lines = processLines now2 lines := by
  induction lines with
  | nil => rfl
  | cons line rest ih =>
    unfold processLines
    rw [processLine_time h line, ih]

/-- C3 (counterexample): the claimed example is miscomputed in the claim:
the Celsius token `"-10"` converts to `round(-10 * 9/5 + 32) = 14` degrees
Fahrenheit and renders as `"014"`, not `"-18"`; moreover the rendering is
not always 3 characters — the non-sentinel token `"600"` renders as the
4-character `"1112"`. -/
theorem c3_counterexample :
    tempField "-10" = some "014" ∧ "014" ≠ "-18" ∧
    tempField "600" = some "1112" ∧ ("1112" : String).length = 4 :=
  ⟨by decide, by decide, by decide, by decide⟩

/-- C3 (amended): the temperature conversion maps a non-sentinel Celsius
token parsing to value `c` to Python-`round` (half to even) of
`c * 9/5 + 32`, rendered at a minimum width of 3 (non-negative zero-padded
to at least 3 digits, negative as a minus sign plus magnitude zero-padded to
at least 2 digits), which is exactly 3 characters whenever the Fahrenheit
value lies in `[-99, 999]`; `"0"` renders as `"032"`, `"-10"` renders as
`"014"`, and `"-28"` renders as `"-18"`. -/
theorem c3_temperature_conversion :
    tempField "0" = some "032" ∧
    tempField "-10" = some "014" ∧
    tempField "-28" = some "-18" ∧
    (∀ (t : String) (c : Frac), t ≠ "MM" → t ≠ "..." → parseFloat t = some c →
      tempField t = some (tempRender (pyRoundQ (c.toRat * 9 / 5 + 32)))) ∧
    (∀ f : ℤ, 3 ≤ (tempRender f).length) ∧
    (∀ f : ℤ, -99 ≤ f → f ≤ 999 → (tempRender f).length = 3) := by
  refine ⟨by decide, by decide, by decide, ?_, tempRender_length_ge,
    tempRender_length_eq⟩
  intro t c hmm hdots hpf
  have hden : c.den ≠ 0 := (parseFloat_den_pos hpf).ne'
  have hsv : safe_value t "..." = t := by
    unfold safe_value
    rw [if_neg hmm]
  unfold tempField
  rw [hsv, if_neg hdots, hpf, Option.map_some']
  have hden2 : (c * 9 / 5 + 32 : Frac).den ≠ 0 := by
    show c.den * 1 * 5 * 1 ≠ 0
    omega
  rw [Frac.roundHE_eq _ hden2, temp_formula_toRat c hden]

/-- C3 (witness): the amended conversion theorem applied to the concrete
token `"22.5"`. -/
theorem c3_witness :
    tempField "22.5"
      = some (tempRender (pyRoundQ ((⟨225, 10⟩ : Frac).toRat * 9 / 5 + 32))) :=
  c3_temperature_conversion.2.2.2.1 "22.5" ⟨225, 10⟩ (by decide) (by decide)
    (by decide)

/-- C4 (counterexample): the claimed longitude example is wrong: the code
renders `decimal_to_dmd(-122.25, is_latitude=False)` as the 9-character
`"12215.00W"` (`%03d` degrees and `%05.2f` minutes), not `"122015.00W"`. -/
theorem c4_counterexample :
    decimal_to_dmd ⟨-12225, 100⟩ false = "12215.00W" ∧
    Frac.toRat ⟨-12225, 100⟩ = -122.25 ∧
    "12215.00W" ≠ "122015.00W" := by
  refine ⟨by decide, ?_, by decide⟩
  unfold Frac.toRat
  norm_num

/-- C4 (amended): `decimal_to_dmd` computes `degrees = floor(|value|)`
(truncation of the non-negative `|value|`), `minutes = (|value| - degrees) * 60`,
renders minutes via `%05.2f` (always 5 characters — 2 integer digits, point,
2 fractional digits — for minutes in `[0, 60)`), and picks N/S resp. E/W by
the sign of the original value;  `(34.5, is_latitude=True)` gives
`"3430.00N"`, but `(-122.25, is_latitude=False)` gives `"12215.00W"`. -/
theorem c4_decimal_to_dmd :
    decimal_to_dmd ⟨345, 10⟩ true = "3430.00N" ∧
    Frac.toRat ⟨345, 10⟩ = 34.5 ∧
    decimal_to_dmd ⟨-12225, 100⟩ false = "12215.00W" ∧
    (∀ v : Frac, Frac.truncI (Frac.abs v) = ⌊|v.toRat|⌋) ∧
    (∀ v : Frac, v.den ≠ 0 →
      ((Frac.abs v - ⟨Frac.truncI (Frac.abs v), 1⟩) * 60).toRat
        = (|v.toRat| - (⌊|v.toRat|⌋ : ℚ)) * 60) ∧
    (∀ v : Frac, v.den ≠ 0 → decimal_to_dmd v true =
      pad0 2 (Frac.truncI (Frac.abs v))
        ++ fmt052 ((Frac.abs v - ⟨Frac.truncI (Frac.abs v), 1⟩) * 60)
        ++ (if 0 ≤ v.toRat then "N" else "S")) ∧
    (∀ v : Frac, v.den ≠ 0 → decimal_to_dmd v false =
      pad0 3 (Frac.truncI (Frac.abs v))
        ++ fmt052 ((Frac.abs v - ⟨Frac.truncI (Frac.abs v), 1⟩) * 60)
        ++ (if 0 ≤ v.toRat then "E" else "W")) ∧
    (∀ m : Frac, m.den ≠ 0 → 0 ≤ m.toRat → m.toRat < 60 →
      (fmt052 m).length = 5) := by
  refine ⟨by decide, ?_, by decide, Frac.truncI_abs_eq, minutes_formula_toRat,
    ?_, ?_, fun m a b c => fmt052_length_of_lt a b c⟩
  · unfold Frac.toRat
    norm_num
  · intro v hden
    unfold decimal_to_dmd
    simp only [if_true, Frac.toRat_nonneg_iff v (Nat.pos_of_ne_zero hden)]
  · intro v hden
    unfold decimal_to_dmd
    simp only [Bool.false_eq_true, if_false,
      Frac.toRat_nonneg_iff v (Nat.pos_of_ne_zero hden)]

/-- C4 (witness): the amended theorem applied at `34.5` (latitude) and at a
concrete in-range minute value. -/
theorem c4_witness :
    decimal_to_dmd ⟨345, 10⟩ true =
      pad0 2 (Frac.truncI (Frac.abs ⟨345, 10⟩))
        ++ fmt052 ((Frac.abs ⟨345, 10⟩
            - ⟨Frac.truncI (Frac.abs ⟨345, 10⟩), 1⟩) * 60)
        ++ (if 0 ≤ Frac.toRat ⟨345, 10⟩ then "N" else "S") ∧
    (fmt052 ⟨30, 1⟩).length = 5 :=
  ⟨c4_decimal_to_dmd.2.2.2.2.2.1 ⟨345, 10⟩ (by decide),
   c4_decimal_to_dmd.2.2.2.2.2.2.2 ⟨30, 1⟩ (by decide) (by norm_num [Frac.toRat])
     (by norm_num [Frac.toRat])⟩

/-- C5 (confirmed): the staleness filter keeps exactly the records whose
timestamp is at most 30 minutes (1800000000 microseconds) before the fetch
wall-clock time: strictly younger than 30 minutes is kept, 30 minutes and
1 second (or more) old is discarded, and a stale timestamp makes the line
skip. -/
theorem c5_staleness_boundary :
    (∀ (now : ℤ) (t : DateTime),
      isStale now t = false ↔ now - epochMicro t ≤ 1800000000) ∧
    (∀ (now : ℤ) (t : DateTime),
      now - epochMicro t < 1800000000 → isStale now t = false) ∧
    (∀ (now : ℤ) (t : DateTime),
      1800000000 + 1000000 ≤ now - epochMicro t → isStale now t = true) ∧
    (∀ (now : ℤ) (line : String) (t : DateTime), tsOf line = some t →
      isStale now t = true → processLine now line = .skipped) := by
  refine ⟨?_, ?_, ?_, ?_⟩
  · intro now t
    simp [isStale, staleLimitMicro, not_lt]
  · intro now t h
    simp only [isStale, staleLimitMicro, decide_eq_false_iff_not, not_lt]
    omega
  · intro now t h
    simp only [isStale, staleLimitMicro, decide_eq_true_eq]
    omega
  · intro now line t hts hstale
    unfold processLine
    split
    · rfl
    · split
      · rfl
      · rw [hts]
        show (if isStale now t then LineResult.skipped else buildRecord line t)
            = LineResult.skipped
        rw [hstale]
        simp

/-- C5 (witness): at the epoch timestamp, a fetch time exactly 30 minutes
later is kept and one 30 minutes 1 second later is discarded. -/
theorem c5_witness :
    isStale 1800000000 ⟨1970, 1, 1, 0, 0⟩ = false ∧
    isStale 1801000000 ⟨1970, 1, 1, 0, 0⟩ = true :=
  ⟨(c5_staleness_boundary.1 1800000000 ⟨1970, 1, 1, 0, 0⟩).mpr (by decide),
   c5_staleness_boundary.2.2.1 1801000000 ⟨1970, 1, 1, 0, 0⟩ (by decide)⟩

/-- C7 (confirmed): a wind-speed token equal to the missing-data marker
`"MM"` becomes the `"..."` sentinel unchanged through conversion; a line
that passed the four gates is never skipped afterwards (so an unknown field
cannot cause a drop); and a retained record built from a line whose
wind-speed token is `"MM"` carries `"..."` in its wind-speed field. -/
theorem c7_wind_speed_sentinel :
    windSpeedField "MM" = some "..." ∧
    (∀ (now : ℤ) (line : String), passesGates now line = true →
      processLine now line ≠ .skipped) ∧
    (∀ (now : ℤ) (line : String) (r : BuoyRecord),
      processLine now line = .record r → tokenOf line 9 = "MM" →
      r.wind_speed = "...") := by
  refine ⟨by decide, fun now line h => processLine_not_skipped h, ?_⟩
  intro now line r hrec htok
  obtain ⟨obs, hts, hstale, h1, h2, hbr⟩ := processLine_record hrec
  obtain ⟨tS, wsS, wgS, wdS, latV, lonV, ht, hws, hwg, hwd, hlat, hlon, rfl⟩ :=
    buildRecord_record hbr
  show wsS = "..."
  rw [htok] at hws
  have : windSpeedField "MM" = some "..." := by decide
  rw [this] at hws
  exact ((Option.some.injEq _ _).mp hws.symm)

/-- C7 (witness): a concrete line with wind speed `"MM"` and other weather
fields known is retained with the `"..."` wind-speed sentinel. -/
theorem c7_witness :
    processLine (epochMicro ⟨2024, 1, 15, 12, 10⟩)
      "41007 34.7 -72.7 2024 01 15 12 00 180 MM 7.0 MM MM MM MM 1013.2 MM 22.5"
      = .record ⟨"41007    ", ⟨347, 10⟩, ⟨-727, 10⟩, "...", "015", "180", "072",
          "10132", "151200"⟩ ∧
    BuoyRecord.wind_speed ⟨"41007    ", ⟨347, 10⟩, ⟨-727, 10⟩, "...", "015",
      "180", "072", "10132", "151200"⟩ = "..." :=
  ⟨by decide,
   c7_wind_speed_sentinel.2.2 (epochMicro ⟨2024, 1, 15, 12, 10⟩)
     "41007 34.7 -72.7 2024 01 15 12 00 180 MM 7.0 MM MM MM MM 1013.2 MM 22.5"
     ⟨"41007    ", ⟨347, 10⟩, ⟨-727, 10⟩, "...", "015", "180", "072", "10132",
       "151200"⟩ (by decide) (by decide)⟩

/-- C8 (confirmed): a non-success fetch status makes `get_latest_buoy_data`
return the empty record list, and the main loop then composes and sends no
message; no exception outcome (`Except.error`) arises. -/
theorem c8_non_success_fetch :
    ∀ (status : ℕ) (body : String) (now : ℤ) (callsign : String),
      status ≠ 200 →
      get_latest_buoy_data status body now = .ok [] ∧
      mainMessages callsign status body now = .ok [] := by
  intro status body now callsign h
  constructor
  · unfold get_latest_buoy_data
    rw [if_pos h]
  · unfold mainMessages get_latest_buoy_data
    rw [if_pos h]
    rfl

/-- C8 (witness): status 404 yields no records and no messages. -/
theorem c8_witness :
    get_latest_buoy_data 404 "irrelevant body" 0 = .ok [] ∧
    mainMessages "CALLSIGN" 404 "irrelevant body" 0 = .ok [] :=
  c8_non_success_fetch 404 "irrelevant body" 0 "CALLSIGN" (by decide)

/-- C9 (confirmed): the normalizer is a pure function of the fetched body
and the wall-clock time (two runs coincide), and the wall-clock time
influences the output only through the staleness predicate: any two times
that agree on staleness of every timestamp produce identical outputs. -/
theorem c9_determinism :
    ∀ (status : ℕ) (body : String) (now now1 now2 : ℤ),
      get_latest_buoy_data status body now = get_latest_buoy_data status body now ∧
      ((∀ t : DateTime, isStale now1 t = isStale now2 t) →
        get_latest_buoy_data status body now1
          = get_latest_buoy_data status body now2) := by
  intro status body now now1 now2
  refine ⟨rfl, fun h => ?_⟩
  unfold get_latest_buoy_data
  split
  · rfl
  · exact processLines_time h _

/-- C9 (witness): the fetch times 5 and 6 microseconds after the epoch agree
on every staleness decision (observation times are whole minutes), so the
runs coincide on any body. -/
theorem c9_witness :
    get_latest_buoy_data 200 "a\nb\nshort" 5
      = get_latest_buoy_data 200 "a\nb\nshort" 6 :=
  (c9_determinism 200 "a\nb\nshort" 0 5 6).2 (by
    intro t
    obtain ⟨k, hk⟩ : (60000000 : ℤ) ∣ epochMicro t :=
      ⟨daysFromCivil t.year t.month t.day * 1440 + t.hour * 60 + t.minute, by
        unfold epochMicro
        ring⟩
    unfold isStale staleLimitMicro
    rw [hk, decide_eq_decide]
    omega)

/-- C1 (counterexample): a line that passes every earlier gate and whose
converted weather fields are all unknown sentinels is NOT discarded: the
loop has no all-unknown gate, so the record appears in the output with
`"..."` wind/temperature fields and the `"....."` pressure sentinel. -/
theorem c1_counterexample :
    passesGates (epochMicro ⟨2024, 1, 15, 12, 10⟩)
      "41001 34.7 -72.7 2024 01 15 12 00 MM MM MM MM MM MM MM MM MM MM MM MM MM"
      = true ∧
    processLines (epochMicro ⟨2024, 1, 15, 12, 10⟩)
      ["41001 34.7 -72.7 2024 01 15 12 00 MM MM MM MM MM MM MM MM MM MM MM MM MM"]
      = .ok [⟨"41001    ", ⟨347, 10⟩, ⟨-727, 10⟩, "...", "...", "...", "...",
          ".....", "151200"⟩] :=
  ⟨by decide, by decide⟩

/-- C1 (amended): there is no all-unknown gate — a line that passes the
length, token-count, timestamp and staleness gates and whose five weather
tokens are all the missing-data marker `"MM"` is still retained (provided
its latitude/longitude tokens parse), with every weather field rendered as
its unknown sentinel. -/
theorem c1_all_unknown_retained :
    ∀ (now : ℤ) (line : String), passesGates now line = true →
      tokenOf line 8 = "MM" → tokenOf line 9 = "MM" → tokenOf line 10 = "MM" →
      tokenOf line 15 = "MM" → tokenOf line 17 = "MM" →
      parseFloat (tokenOf line 1) ≠ none → parseFloat (tokenOf line 2) ≠ none →
      ∃ r, processLine now line = .record r ∧ r.wind_direction = "..." ∧
        r.wind_speed = "..." ∧ r.wind_gust = "..." ∧ r.temperature = "..." ∧
        r.pressure = "....." := by
  intro now line hg h8 h9 h10 h15 h17 hlat hlon
  obtain ⟨obs, hts, hstale, hpl⟩ := processLine_gates hg
  cases hlatv : parseFloat (tokenOf line 1) with
  | none => exact absurd hlatv hlat
  | some latV =>
  cases hlonv : parseFloat (tokenOf line 2) with
  | none => exact absurd hlonv hlon
  | some lonV =>
  refine ⟨⟨ljust 9 (tokenOf line 0), latV, lonV, "...", "...", "...", "...",
    ".....", strftimeDDHHMM obs⟩, ?_, rfl, rfl, rfl, rfl, rfl⟩
  rw [hpl]
  unfold buildRecord
  rw [h8, h9, h10, h15, h17, hlatv, hlonv]
  rfl

/-- C1 (witness): the amended theorem at a concrete all-`"MM"` line. -/
theorem c1_witness :
    ∃ r, processLine (epochMicro ⟨2024, 1, 15, 12, 10⟩)
        "41011 34.7 -72.7 2024 01 15 12 00 MM MM MM MM MM MM MM MM MM MM MM MM MM"
        = .record r ∧ r.wind_direction = "..." ∧ r.wind_speed = "..." ∧
      r.wind_gust = "..." ∧ r.temperature = "..." ∧ r.pressure = "....." :=
  c1_all_unknown_retained (epochMicro ⟨2024, 1, 15, 12, 10⟩)
    "41011 34.7 -72.7 2024 01 15 12 00 MM MM MM MM MM MM MM MM MM MM MM MM MM"
    (by decide) (by decide) (by decide) (by decide) (by decide) (by decide)
    (by decide) (by decide)

/-- C2 (counterexample): a line that passes the four gates but whose
temperature token `"N/A"` is neither `"MM"` nor numerically convertible
makes the run abort with an uncaught `ValueError` (the conversions at
source lines 56-71 sit outside the `try`/`except`); the line is not merely
skipped and processing does not continue. -/
theorem c2_counterexample :
    passesGates (epochMicro ⟨2024, 1, 15, 12, 10⟩)
      "41002 34.7 -72.7 2024 01 15 12 00 180 5.0 7.0 MM MM MM MM 1013.2 MM N/A"
      = true ∧
    tokenOf "41002 34.7 -72.7 2024 01 15 12 00 180 5.0 7.0 MM MM MM MM 1013.2 MM N/A"
      17 = "N/A" ∧
    parseFloat "N/A" = none ∧
    processLines (epochMicro ⟨2024, 1, 15, 12, 10⟩)
      ["41002 34.7 -72.7 2024 01 15 12 00 180 5.0 7.0 MM MM MM MM 1013.2 MM N/A"]
      = .error () :=
  ⟨by decide, by decide, by decide, by decide⟩

/-- C2 (amended): failures inside the guarded region (tokenization,
timestamp) skip the line non-fatally, but a wind-direction, wind-speed,
wind-gust or temperature token that is neither `"MM"` nor `"..."` and fails
numeric conversion raises an uncaught `ValueError` on a line that passed the
gates, and any such exception aborts the whole run. -/
theorem c2_unguarded_conversion_aborts :
    (∀ t : String, t ≠ "MM" → t ≠ "..." → parseFloat t = none →
      tempField t = none) ∧
    (∀ t : String, t ≠ "MM" → t ≠ "..." → parseFloat t = none →
      windSpeedField t = none) ∧
    (∀ t : String, t ≠ "MM" → t ≠ "..." → parseInt t = none →
      windDirField t = none) ∧
    (∀ (now : ℤ) (line : String), passesGates now line = true →
      (tempField (tokenOf line 17) = none ∨
       windSpeedField (tokenOf line 9) = none ∨
       windSpeedField (tokenOf line 10) = none ∨
       windDirField (tokenOf line 8) = none) →
      processLine now line = .exn) ∧
    (∀ (now : ℤ) (lines : List String) (l : String), l ∈ lines →
      processLine now l = .exn → processLines now lines = .error ()) := by
  have hsv : ∀ t : String, t ≠ "MM" → safe_value t "..." = t := by
    intro t hmm
    unfold safe_value
    rw [if_neg hmm]
  have hsv0 : ∀ t : String, t ≠ "MM" → safe_value t "0" = t := by
    intro t hmm
    unfold safe_value
    rw [if_neg hmm]
  refine ⟨?_, ?_, ?_, ?_, fun now lines l hl he => processLines_error hl he⟩
  · intro t hmm hdots hpf
    unfold tempField
    rw [hsv t hmm, if_neg hdots, hpf]
    rfl
  · intro t hmm hdots hpf
    unfold windSpeedField
    rw [hsv t hmm, if_neg hdots, hsv0 t hmm, hpf]
    rfl
  · intro t hmm hdots hpi
    unfold windDirField
    rw [hsv t hmm, if_neg hdots, hsv0 t hmm, hpi]
    rfl
  · intro now line hg hbad
    obtain ⟨obs, hts, hstale, hpl⟩ := processLine_gates hg
    rw [hpl]
    unfold buildRecord
    rcases hbad with hb | hb | hb | hb
    · rw [hb]
    · cases htf : tempField (tokenOf line 17) with
      | none => rfl
      | some tS => rw [hb]
    · cases htf : tempField (tokenOf line 17) with
      | none => rfl
      | some tS =>
        cases hws : windSpeedField (tokenOf line 9) with
        | none => rfl
        | some wsS => rw [hb]
    · cases htf : tempField (tokenOf line 17) with
      | none => rfl
      | some tS =>
        cases hws : windSpeedField (tokenOf line 9) with
        | none => rfl
        | some wsS =>
          cases hwg : windSpeedField (tokenOf line 10) with
          | none => rfl
          | some wgS => rw [hb]

/-- C2 (witness): the amended theorem at a concrete line whose temperature
token `"12.%"` fails conversion after the gates. -/
theorem c2_witness :
    processLine (epochMicro ⟨2024, 1, 15, 12, 10⟩)
      "41023 34.7 -72.7 2024 01 15 12 00 180 5.0 7.0 MM MM MM MM 1013.2 MM 12.%"
      = .exn :=
  c2_unguarded_conversion_aborts.2.2.2.1 (epochMicro ⟨2024, 1, 15, 12, 10⟩)
    "41023 34.7 -72.7 2024 01 15 12 00 180 5.0 7.0 MM MM MM MM 1013.2 MM 12.%"
    (by decide) (Or.inl (by decide))

/-- C6 (counterexample): field widths are only minimum widths: a station
identifier token of 10 characters survives `ljust(9)` unchanged, so the
retained record's stationId field is 10 characters, not exactly 9. -/
theorem c6_counterexample :
    processLines (epochMicro ⟨2024, 1, 15, 12, 10⟩)
      ["ABCDEFGHIJ 34.7 -72.7 2024 01 15 12 00 180 5.0 7.0 MM MM MM MM 1013.2 MM 22.5"]
      = .ok [⟨"ABCDEFGHIJ", ⟨347, 10⟩, ⟨-727, 10⟩, "011", "015", "180", "072",
          "10132", "151200"⟩] ∧
    ("ABCDEFGHIJ" : String).length = 10 :=
  ⟨by decide, by decide⟩

/-- C6 (amended): every retained record renders the observation time at
exactly 6 characters and every other protocol field at a minimum of its
fixed width (stationId at least 9 — exactly `max 9 (token length)` by
`ljust`; wind direction/speed/gust and temperature at least 3; pressure at
least 5); widths exceed the fixed value only when the station token is
longer than 9 characters or a converted value overflows its field. -/
theorem c6_field_widths :
    (∀ s : String, (ljust 9 s).length = max 9 s.length) ∧
    (∀ (now : ℤ) (lines : List String) (rs : List BuoyRecord) (r : BuoyRecord),
      processLines now lines = .ok rs → r ∈ rs →
      r.obs_time.length = 6 ∧ 9 ≤ r.id.length ∧
      3 ≤ r.wind_direction.length ∧ 3 ≤ r.wind_speed.length ∧
      3 ≤ r.wind_gust.length ∧ 3 ≤ r.temperature.length ∧
      5 ≤ r.pressure.length) := by
  refine ⟨ljust_length 9, ?_⟩
  intro now lines rs r h hr
  obtain ⟨line, hline, hrec⟩ := processLines_mem h hr
  obtain ⟨obs, hts, hstale, h70, h18, hbr⟩ := processLine_record hrec
  obtain ⟨tS, wsS, wgS, wdS, latV, lonV, ht, hws, hwg, hwd, hlat, hlon, rfl⟩ :=
    buildRecord_record hbr
  unfold tsOf at hts
  obtain ⟨_, _, _, hday, hhour, hmin⟩ := parseTimestamp_ranges hts
  refine ⟨?_, ?_, windDirField_length hwd, windSpeedField_length hws,
    windSpeedField_length hwg, tempField_length ht, pressureField_length_ge _⟩
  · exact strftime_length (by omega) (by omega) (by omega)
  · show 9 ≤ (ljust 9 (tokenOf line 0)).length
    rw [ljust_length]
    omega

/-- C6 (witness): the amended width bounds at a concrete fully-known line. -/
theorem c6_witness :
    ("151200" : String).length = 6 ∧ 9 ≤ ("41006    " : String).length ∧
    3 ≤ ("180" : String).length ∧ 3 ≤ ("011" : String).length ∧
    3 ≤ ("015" : String).length ∧ 3 ≤ ("072" : String).length ∧
    5 ≤ ("10132" : String).length :=
  c6_field_widths.2 (epochMicro ⟨2024, 1, 15, 12, 10⟩)
    ["41006 34.7 -72.7 2024 01 15 12 00 180 5.0 7.0 MM MM MM MM 1013.2 MM 22.5"]
    [⟨"41006    ", ⟨347, 10⟩, ⟨-727, 10⟩, "011", "015", "180", "072", "10132",
      "151200"⟩]
    ⟨"41006    ", ⟨347, 10⟩, ⟨-727, 10⟩, "011", "015", "180", "072", "10132",
      "151200"⟩ (by decide) (by decide)

/-- C10 (counterexample): as stated, the claim fails: a line that passes the
four gates and has an unparseable non-`"MM"` pressure token is nevertheless
not retained when another unguarded conversion (here the temperature token
`"N/A"`) raises — the run aborts instead. -/
theorem c10_counterexample :
    passesGates (epochMicro ⟨2024, 1, 15, 12, 10⟩)
      "41010 34.7 -72.7 2024 01 15 12 00 180 5.0 7.0 MM MM MM MM 10X3.2 MM N/A"
      = true ∧
    tokenOf "41010 34.7 -72.7 2024 01 15 12 00 180 5.0 7.0 MM MM MM MM 10X3.2 MM N/A"
      15 = "10X3.2" ∧
    parseFloat "10X3.2" = none ∧ "10X3.2" ≠ "MM" ∧
    processLines (epochMicro ⟨2024, 1, 15, 12, 10⟩)
      ["41010 34.7 -72.7 2024 01 15 12 00 180 5.0 7.0 MM MM MM MM 10X3.2 MM N/A"]
      = .error () :=
  ⟨by decide, by decide, by decide, by decide, by decide⟩

/-- C10 (amended): a pressure conversion failure by itself never skips or
aborts a line: the pressure `try`/`except` renders any unparseable
non-sentinel token as `"....."`, and a gated line whose other conversions
succeed is retained with that sentinel pressure field. -/
theorem c10_pressure_failure_tolerated :
    (∀ p : String, p ≠ "..." → parseFloat p = none → pressureField p = ".....") ∧
    (∀ (now : ℤ) (line : String), passesGates now line = true →
      tempField (tokenOf line 17) ≠ none →
      windSpeedField (tokenOf line 9) ≠ none →
      windSpeedField (tokenOf line 10) ≠ none →
      windDirField (tokenOf line 8) ≠ none →
      parseFloat (tokenOf line 1) ≠ none →
      parseFloat (tokenOf line 2) ≠ none →
      parseFloat (tokenOf line 15) = none →
      ∃ r, processLine now line = .record r ∧ r.pressure = ".....") := by
  have hfail : ∀ p : String, p ≠ "..." → parseFloat p = none →
      pressureField p = "....." := by
    intro p hne hpf
    unfold pressureField
    rw [if_neg hne, hpf]
  refine ⟨hfail, ?_⟩
  intro now line hg htf hws hwg hwd hlat hlon hpf
  obtain ⟨obs, hts, hstale, hpl⟩ := processLine_gates hg
  cases htfv : tempField (tokenOf line 17) with
  | none => exact absurd htfv htf
  | some tS =>
  cases hwsv : windSpeedField (tokenOf line 9) with
  | none => exact absurd hwsv hws
  | some wsS =>
  cases hwgv : windSpeedField (tokenOf line 10) with
  | none => exact absurd hwgv hwg
  | some wgS =>
  cases hwdv : windDirField (tokenOf line 8) with
  | none => exact absurd hwdv hwd
  | some wdS =>
  cases hlatv : parseFloat (tokenOf line 1) with
  | none => exact absurd hlatv hlat
  | some latV =>
  cases hlonv : parseFloat (tokenOf line 2) with
  | none => exact absurd hlonv hlon
  | some lonV =>
  have hp5 : pressureField (tokenOf line 15) = "....." := by
    by_cases hdots : tokenOf line 15 = "..."
    · rw [hdots]
      decide
    · exact hfail _ hdots hpf
  refine ⟨⟨ljust 9 (tokenOf line 0), latV, lonV, wsS, wgS, wdS, tS,
    pressureField (tokenOf line 15), strftimeDDHHMM obs⟩, ?_, ?_⟩
  · rw [hpl]
    unfold buildRecord
    rw [htfv, hwsv, hwgv, hwdv, hlatv, hlonv]
  · show pressureField (tokenOf line 15) = "....."
    exact hp5

/-- C10 (witness): the amended theorem at a concrete line whose pressure
token `"10X3.2"` fails conversion while everything else succeeds. -/
theorem c10_witness :
    ∃ r, processLine (epochMicro ⟨2024, 1, 15, 12, 10⟩)
        "41015 34.7 -72.7 2024 01 15 12 00 180 5.0 7.0 MM MM MM MM 10X3.2 MM 22.5"
        = .record r ∧ r.pressure = "....." :=
  c10_pressure_failure_tolerated.2 (epochMicro ⟨2024, 1, 15, 12, 10⟩)
    "41015 34.7 -72.7 2024 01 15 12 00 180 5.0 7.0 MM MM MM MM 10X3.2 MM 22.5"
    (by decide) (by decide) (by decide) (by decide) (by decide) (by decide)
    (by decide) (by decide)

